import Mathlib

/-!
Shallow embedding of the chunk-assembly / rendering stage of the
`rolldown` bundler, restricted to the parts the specification's claims
talk about:

* `crates/rolldown_common/src/types/import_record.rs` — import-edge model;
* `crates/rolldown/src/bundler/utils/load_source.rs` — source loading;
* `crates/rolldown/src/utils/chunk/render_chunk.rs` — the chunk render
  pipeline (`render_chunk`).

Rust machine types are mapped as follows: `Atom`/`String` become `String`,
index types (`ModuleId`, `SymbolId`) become `Nat`, `Option<T>` becomes
`Option T`, fallible code (`Result`, `?`, `.expect`, `.unwrap`) becomes
`Except String` carrying the panic/diagnostic message.  External
collaborators (plugin driver, file system, per-module renderer, the
`render_chunk_imports` / `render_chunk_exports` helpers and the
`generate_rendered_chunk` summary, none of which are part of the sources
under study) are modelled as opaque data supplied in the input structures.
-/

namespace Rolldown

/-! ## Import-edge model (`import_record.rs`) -/

/-- `SymbolRef`: a module-scoped symbol index paired with its owner module. -/
structure SymbolRef where
  owner : Nat
  symbol : Nat
deriving DecidableEq

/-- `ImportKind` from `import_record.rs`. -/
inductive ImportKind where
  | Import
  | DynamicImport
  | Require
deriving DecidableEq

/-- `ImportKind::is_static`: `matches!(self, Self::Import | Self::Require)`. -/
def ImportKind.is_static : ImportKind → Bool
  | .Import => true
  | .Require => true
  | .DynamicImport => false

/-- The `Display` impl for `ImportKind`. -/
def ImportKind.display : ImportKind → String
  | .Import => "import-statement"
  | .DynamicImport => "dynamic-import"
  | .Require => "require-call"

/-- `RawImportRecord` from `import_record.rs` (an `Atom` is a string). -/
structure RawImportRecord where
  module_request : String
  kind : ImportKind
  namespace_ref : SymbolRef
  contains_import_star : Bool
  contains_import_default : Bool
deriving DecidableEq

/-- `RawImportRecord::new(specifier, kind, namespace_ref)`. -/
def RawImportRecord.new (specifier : String) (kind : ImportKind)
    (namespace_ref : SymbolRef) : RawImportRecord :=
  { module_request := specifier
    kind := kind
    namespace_ref := namespace_ref
    contains_import_default := false
    contains_import_star := false }

/-- `ImportRecord`: the resolved form of an import record. -/
structure ImportRecord where
  module_request : String
  resolved_module : Nat
  kind : ImportKind
  namespace_ref : SymbolRef
  contains_import_star : Bool
  contains_import_default : Bool
deriving DecidableEq

/-- `RawImportRecord::into_import_record(resolved_module)`. -/
def RawImportRecord.into_import_record (r : RawImportRecord)
    (resolved_module : Nat) : ImportRecord :=
  { module_request := r.module_request
    resolved_module := resolved_module
    kind := r.kind
    namespace_ref := r.namespace_ref
    contains_import_star := r.contains_import_star
    contains_import_default := r.contains_import_default }

/-! ## Source loading (`load_source.rs`) -/

/-- `ResolvedPath` (from `rolldown_common`): a path plus its `ignored` mark. -/
structure ResolvedPath where
  path : String
  ignored : Bool
deriving DecidableEq

/-- The plugin driver collaborator: `load` returns `Ok(Some(output.code))`
when some plugin supplied content, `Ok(None)` when none did, or an error.
Errors are carried as strings (standing for `BatchedErrors`). -/
structure PluginDriver where
  load : String → Except String (Option String)

/-- The file-system collaborator: `read_to_string` on a path. -/
structure FileSystem where
  read_to_string : String → Except String String

/-- `load_source` from `load_source.rs`:
plugin content if some plugin supplies it, else empty text for ignored
paths, else the file system's raw text; errors propagate via `?`. -/
def load_source (plugin_driver : PluginDriver) (resolved_path : ResolvedPath)
    (fs : FileSystem) : Except String String :=
  match plugin_driver.load resolved_path.path with
  | .error e => .error e
  | .ok (some r) => .ok r
  | .ok none =>
    if resolved_path.ignored then
      .ok ""
    else
      fs.read_to_string resolved_path.path

/-! ## Chunk render pipeline (`render_chunk.rs`)

The pipeline is embedded as the sequence of primitive actions `render_chunk`
performs in program order: adding a source to the output buffer, prepending a
source, and awaiting the user-supplied banner / footer callables.  The final
text is recovered from that trace by the `ConcatSource` semantics. -/

/-- `OutputFormat` from the resolved output options. -/
inductive OutputFormat where
  | esm
  | cjs
  | app
deriving DecidableEq

/-- `ExportsKind` of a normal module. -/
inductive ExportsKind where
  | esm
  | commonJs
  | none
deriving DecidableEq

/-- `WrapKind` computed by linking for each module. -/
inductive WrapKind where
  | esm
  | cjs
  | none
deriving DecidableEq

/-- `ChunkKind`: an entry-point chunk remembers its entry module id. -/
inductive ChunkKind where
  | entryPoint (module : Nat)
  | common
deriving DecidableEq

/-- The output of `render_normal_module` for one module (the per-module
renderer is an external collaborator; the sourcemap variant adds the same
`rendered_content` text, so only the text is kept).  `rendered_module` is the
opaque per-module metadata value stored into the `rendered_modules` map. -/
structure ModuleRenderOutput where
  module_path : String
  module_pretty_path : String
  rendered_content : String
  rendered_module : String
deriving DecidableEq

/-- The chunk fields read by `render_chunk` (from `rolldown_common::Chunk`). -/
structure Chunk where
  kind : ChunkKind
  modules : List Nat
  preliminary_filename : Option String
deriving DecidableEq

/-- The link-stage output plus the external per-chunk helpers, as read by
`render_chunk` for one fixed chunk:

* `module_exports_kind i` — `module_table.normal_modules[i].exports_kind`;
* `ast_contains_use_strict i` — `ast_table[i].contains_use_strict`;
* `render_output i` — the result of `render_normal_module` on module `i`
  (`none` when the renderer produced nothing; external collaborator);
* `wrap_kind i` / `wrapper_ref i` — `metas[i].wrap_kind` / `metas[i].wrapper_ref`;
* `canonical_name_for r` — `symbols.canonical_name_for(r, chunk.canonical_names)`;
* `render_chunk_imports_ret` — the text returned by `render_chunk_imports`
  for this chunk (external helper);
* `render_chunk_exports_ret` — the optional text returned by
  `render_chunk_exports` for this chunk (external helper). -/
structure Graph where
  module_exports_kind : Nat → ExportsKind
  ast_contains_use_strict : Nat → Bool
  render_output : Nat → Option ModuleRenderOutput
  wrap_kind : Nat → WrapKind
  wrapper_ref : Nat → Option Nat
  canonical_name_for : Nat → String
  render_chunk_imports_ret : String
  render_chunk_exports_ret : Option String

/-- The resolved output options read by `render_chunk`.  A banner / footer
callable is modelled by the value its (awaited, successful) call returns:
`Options.banner = none` means no callable was configured, `some r` means a
callable is present and its call yields `r : Option String`.  Paths (`cwd`,
`dir`) are lists of components. -/
structure Options where
  format : OutputFormat
  banner : Option (Option String)
  footer : Option (Option String)
  cwd : List String
  dir : List String

/-- One primitive action of `render_chunk`, in program order. -/
inductive RenderEvent where
  | addSource (s : String)
  | addPrepend (s : String)
  | awaitBanner
  | awaitFooter
deriving DecidableEq

/-- Stage 1a: the cross-chunk import preamble, added for the Esm/Cjs formats
only (the App branch of the `match` never calls `render_chunk_imports`). -/
def importEvents (graph : Graph) (options : Options) : List RenderEvent :=
  match options.format with
  | .app => []
  | .esm => [.addSource graph.render_chunk_imports_ret]
  | .cjs => [.addSource graph.render_chunk_imports_ret]

/-- Stage 1b: the `for_each` over the collected module render outputs — a
path-comment source followed by the module's rendered content, for every
module, in vector order. -/
def moduleEvents (outs : List ModuleRenderOutput) : List RenderEvent :=
  outs.flatMap fun out =>
    [.addSource ("// " ++ out.module_pretty_path), .addSource out.rendered_content]

/-- The collected vector of module render outputs in static module order:
`modules.par_iter().map(...).filter_map(render_normal_module).collect()`. -/
def moduleRenderOutputs (c : Chunk) (graph : Graph) : List ModuleRenderOutput :=
  c.modules.filterMap graph.render_output

/-- The actions following a banner await: a non-empty result is prepended. -/
def bannerTail (res : Option String) : List RenderEvent :=
  match res with
  | some banner_txt => if banner_txt = "" then [] else [.addPrepend banner_txt]
  | none => []

/-- The banner stage: if a banner callable is configured it is awaited, and a
non-empty result is prepended. -/
def bannerEvents (options : Options) : List RenderEvent :=
  match options.banner with
  | none => []
  | some res => .awaitBanner :: bannerTail res

/-- `this.modules.iter().all(...)` from the `use strict` stage: every member
module is of ES-module exports kind or textually contains `use strict`. -/
def areModulesAllStrict (c : Chunk) (graph : Graph) : Bool :=
  c.modules.all fun id =>
    match graph.module_exports_kind id with
    | .esm => true
    | _ => graph.ast_contains_use_strict id

/-- The exact strict-mode prologue text prepended by `render_chunk`. -/
def useStrictDirective : String := "\"use strict\";\n"

/-- The `use strict` stage: for the Cjs format only, prepend the directive
when every member module is ESM or already strict. -/
def useStrictEvents (c : Chunk) (graph : Graph) (options : Options) :
    List RenderEvent :=
  match options.format with
  | .cjs => if areModulesAllStrict c graph then [.addPrepend useStrictDirective] else []
  | _ => []

/-- The entry wrap-invocation stage, returning the sources it appends.
Mirrors the `if let ChunkKind::EntryPoint` block: Esm format only; the
`wrapper_ref.as_ref().unwrap()` panic on a missing wrapper becomes an
`Except.error`. -/
def wrapSources (c : Chunk) (graph : Graph) (options : Options) :
    Except String (List String) :=
  match c.kind with
  | .entryPoint entry_id =>
    match options.format with
    | .esm =>
      match graph.wrap_kind entry_id with
      | .esm =>
        match graph.wrapper_ref entry_id with
        | some wrapper_ref => .ok [graph.canonical_name_for wrapper_ref ++ "();"]
        | none => .error "called Option::unwrap on a None value"
      | .cjs =>
        match graph.wrapper_ref entry_id with
        | some wrapper_ref =>
          .ok ["export default " ++ graph.canonical_name_for wrapper_ref ++ "();\n"]
        | none => .error "called Option::unwrap on a None value"
      | .none => .ok []
    | .cjs => .ok []
    | .app => .ok []
  | .common => .ok []

/-- The export-block stage: for Esm/Cjs, append the text produced by
`render_chunk_exports` when it returns one; nothing for the App format. -/
def exportEvents (graph : Graph) (options : Options) : List RenderEvent :=
  match options.format with
  | .app => []
  | _ =>
    match graph.render_chunk_exports_ret with
    | some exports => [.addSource exports]
    | none => []

/-- The actions following a footer await: a non-empty result is appended. -/
def footerTail (res : Option String) : List RenderEvent :=
  match res with
  | some footer_txt => if footer_txt = "" then [] else [.addSource footer_txt]
  | none => []

/-- The footer stage: if a footer callable is configured it is awaited, and a
non-empty result is appended. -/
def footerEvents (options : Options) : List RenderEvent :=
  match options.footer with
  | none => []
  | some res => .awaitFooter :: footerTail res

/-- The full action trace of `render_chunk`, parameterised by the collected
module-output vector (stage 2's result), in the exact program order of
`render_chunk`: imports and module fragments, banner await, `use strict`
stage, entry wrap invocation, export block, footer await. -/
def renderEventsWith (outs : List ModuleRenderOutput) (c : Chunk)
    (graph : Graph) (options : Options) : Except String (List RenderEvent) :=
  match wrapSources c graph options with
  | .error e => .error e
  | .ok ws =>
    .ok (importEvents graph options ++ moduleEvents outs ++ bannerEvents options
      ++ useStrictEvents c graph options ++ ws.map .addSource
      ++ exportEvents graph options ++ footerEvents options)

/-- The action trace of `render_chunk` on the sequentially collected module
outputs. -/
def renderEvents (c : Chunk) (graph : Graph) (options : Options) :
    Except String (List RenderEvent) :=
  renderEventsWith (moduleRenderOutputs c graph) c graph options

/-- The ordered list of prepended sources of a trace. -/
def prependsOf (evs : List RenderEvent) : List String :=
  evs.filterMap fun e =>
    match e with
    | .addPrepend s => some s
    | _ => Option.none

/-- The ordered list of appended sources of a trace. -/
def innerOf (evs : List RenderEvent) : List String :=
  evs.filterMap fun e =>
    match e with
    | .addSource s => some s
    | _ => Option.none

/-- Concatenation of a list of source texts into one buffer. -/
def strConcat : List String → String
  | [] => ""
  | s :: rest => s ++ strConcat rest

/-- Modelled from the spec: the `ConcatSource` buffer semantics
(`rolldown_sourcemap`, not among the sources under study).  Per §4.4 steps
7–8 the buffer concatenates everything, with prepended sources placed before
every appended source; a source prepended earlier keeps its place before
later prepends, so that the banner (prepended first) precedes the
strict-mode directive (prepended second). -/
def contentOf (evs : List RenderEvent) : String :=
  strConcat (prependsOf evs ++ innerOf evs)

/-- `content_and_sourcemap().0` of the whole render: the chunk's final code. -/
def chunkCode (c : Chunk) (graph : Graph) (options : Options) :
    Except String String :=
  (renderEvents c graph options).map contentOf

/-- The `rendered_modules` map built by the render loop: modules whose path
starts with a null byte are skipped (NAPI-RS workaround), the rest map their
path to their `rendered_module` metadata.  The hash map is modelled as an
association list whose `insert` replaces an existing key or appends. -/
def insertMap (m : List (String × String)) (k v : String) :
    List (String × String) :=
  if m.any (fun p => p.1 = k) then
    m.map fun p => if p.1 = k then (k, v) else p
  else
    m ++ [(k, v)]

/-- `'\0'`-prefix test: `module_path.starts_with('\0')`. -/
def startsWithNull (s : String) : Bool :=
  match s.data with
  | [] => false
  | c :: _ => c = '\x00'

/-- The `rendered_modules` map after the render loop over `outs`. -/
def renderedModules (outs : List ModuleRenderOutput) : List (String × String) :=
  outs.foldl
    (fun m out =>
      if startsWithNull out.module_path then m
      else insertMap m out.module_path out.rendered_module)
    []

/-- Split a character list at `'/'` boundaries (auxiliary for `splitPath`). -/
def splitSegs : List Char → List Char → List (List Char)
  | [], acc => [acc.reverse]
  | c :: rest, acc =>
    if c = '/' then acc.reverse :: splitSegs rest [] else splitSegs rest (c :: acc)

/-- Splitting a rendered file name into its path segments (the name template
may contain path separators); empty segments carry no path component. -/
def splitPath (s : String) : List String :=
  ((splitSegs s.data []).filter (fun seg => ¬ seg = [])).map fun seg => { data := seg }

/-- `Path::parent` on a component list: `none` when there is no parent
component to take. -/
def pathParent (p : List String) : Option (List String) :=
  match p with
  | [] => Option.none
  | _ => some p.dropLast

/-- The `ChunkRenderReturn` fields the claims are about. -/
structure ChunkRenderReturn where
  code : String
  file_dir : List String
  preliminary_filename : String
deriving DecidableEq

/-- `render_chunk` end to end: produce the trace (propagating the wrap-stage
panic), then materialise the code and resolve the output file path.  The two
`.expect` panics become `Except.error`s carrying their diagnostic text. -/
def render_chunk (c : Chunk) (graph : Graph) (options : Options) :
    Except String ChunkRenderReturn :=
  match renderEvents c graph options with
  | .error e => .error e
  | .ok evs =>
    match c.preliminary_filename with
    | Option.none => .error "chunk file name should be generated before rendering"
    | some fname =>
      match pathParent (options.cwd ++ options.dir ++ splitPath fname) with
      | Option.none => .error "chunk file name should have a parent"
      | some file_dir =>
        .ok { code := contentOf evs
              file_dir := file_dir
              preliminary_filename := fname }

/-! ## Worker-pool model for parallel module rendering

Modelled from the spec: the rayon worker pool (`par_iter ... collect`) is not
among the sources under study.  Per §9 the parallel map produces an
order-indexed fragment vector: workers complete in an arbitrary order (the
`schedule`, a permutation of the module indices, abstracting both pool size
and completion order), each completion carries its module's index, and the
collector writes each completion into the slot of its index; the surviving
fragments are then read off in slot order. -/

/-- Write each completed `(index, value)` pair into its slot. -/
def writeSlots (slots : List (Option α)) : List (Nat × α) → List (Option α)
  | [] => slots
  | (i, a) :: rest => writeSlots (slots.set i (some a)) rest

/-- The completion stream of the pool under a given schedule: worker for
position `i` renders the `i`-th member module. -/
def poolCompletions (c : Chunk) (graph : Graph) (schedule : List Nat) :
    List (Nat × Option ModuleRenderOutput) :=
  schedule.map fun i => (i, c.modules[i]?.bind graph.render_output)

/-- The collected module-output vector under a schedule: completions are
written into their slots, then read off in slot order, dropping modules whose
renderer produced nothing. -/
def pooledOutputs (c : Chunk) (graph : Graph) (schedule : List Nat) :
    List ModuleRenderOutput :=
  (((writeSlots (List.replicate c.modules.length Option.none)
      (poolCompletions c graph schedule)).filterMap id).filterMap id)

/-- The chunk's final code when module rendering completes under `schedule`. -/
def chunkCodePooled (c : Chunk) (graph : Graph) (options : Options)
    (schedule : List Nat) : Except String String :=
  (renderEventsWith (pooledOutputs c graph schedule) c graph options).map contentOf

/-! ### Per-stage source lists

Named views of what each stage contributes to the output buffer, used to
state the ordering claims. -/

/-- Sources appended by the import-preamble stage. -/
def importSources (graph : Graph) (options : Options) : List String :=
  match options.format with
  | .app => []
  | .esm => [graph.render_chunk_imports_ret]
  | .cjs => [graph.render_chunk_imports_ret]

/-- Sources appended by the module-rendering stage, in static module order:
each module's path comment followed by its rendered content. -/
def moduleSources (outs : List ModuleRenderOutput) : List String :=
  outs.flatMap fun out => ["// " ++ out.module_pretty_path, out.rendered_content]

/-- Sources appended by the export-block stage. -/
def exportSources (graph : Graph) (options : Options) : List String :=
  match options.format with
  | .app => []
  | _ =>
    match graph.render_chunk_exports_ret with
    | some exports => [exports]
    | none => []

/-- Sources appended by the footer stage. -/
def footerSources (options : Options) : List String :=
  match options.footer with
  | some (some footer_txt) => if footer_txt = "" then [] else [footer_txt]
  | _ => []

/-- Sources prepended by the banner stage. -/
def bannerPrependSources (options : Options) : List String :=
  match options.banner with
  | some (some banner_txt) => if banner_txt = "" then [] else [banner_txt]
  | _ => []

/-- Sources prepended by the `use strict` stage. -/
def useStrictSources (c : Chunk) (graph : Graph) (options : Options) :
    List String :=
  match options.format with
  | .cjs => if areModulesAllStrict c graph then [useStrictDirective] else []
  | _ => []

/-- All appended (non-prepended) sources of the render, in buffer order. -/
def chunkInnerSources (c : Chunk) (graph : Graph) (options : Options) :
    Except String (List String) :=
  (renderEvents c graph options).map innerOf

/-- All prepended sources of the render, in buffer order. -/
def chunkPrependSources (c : Chunk) (graph : Graph) (options : Options) :
    Except String (List String) :=
  (renderEvents c graph options).map prependsOf

/-! ### Concrete inputs used to instantiate the theorems -/

/-- A module render output with an ordinary path. -/
def exOut0 : ModuleRenderOutput :=
  { module_path := "src/a.js"
    module_pretty_path := "src/a.js"
    rendered_content := "const a = 1;"
    rendered_module := "meta-a" }

/-- A module render output whose path begins with a null byte. -/
def exOutNull : ModuleRenderOutput :=
  { module_path := "\x00rolldown/runtime"
    module_pretty_path := "rolldown:runtime"
    rendered_content := "var runtime = {};"
    rendered_module := "meta-runtime" }

/-- A link-output instance: module 0 ordinary, module 1 null-prefixed,
module 2 with no render output; entry metadata points at wrapper symbol 7. -/
def exGraph : Graph :=
  { module_exports_kind := fun i => if i = 2 then ExportsKind.commonJs else ExportsKind.esm
    ast_contains_use_strict := fun i => i = 1
    render_output := fun i =>
      if i = 0 then some exOut0 else if i = 1 then some exOutNull else Option.none
    wrap_kind := fun _ => WrapKind.cjs
    wrapper_ref := fun _ => some 7
    canonical_name_for := fun r => if r = 7 then "require_main" else "name"
    render_chunk_imports_ret := "const x = require(\"./chunk-1.js\");\n"
    render_chunk_exports_ret := some "export { a };\n" }

/-- A two-module common chunk. -/
def exChunk : Chunk :=
  { kind := ChunkKind.common
    modules := [0, 1]
    preliminary_filename := some "main.js" }

/-- An entry chunk over the same modules. -/
def exEntryChunk : Chunk :=
  { kind := ChunkKind.entryPoint 0
    modules := [0, 1]
    preliminary_filename := some "main.js" }

/-- Esm options with a shebang banner and a footer. -/
def exOptionsEsm : Options :=
  { format := OutputFormat.esm
    banner := some (some "#!/usr/bin/env node\n")
    footer := some (some "// done\n")
    cwd := ["root"]
    dir := ["dist"]  }

/-- Cjs options without banner or footer. -/
def exOptionsCjs : Options :=
  { format := OutputFormat.cjs
    banner := Option.none
    footer := Option.none
    cwd := ["root"]
    dir := ["dist"]  }

/-- A chunk whose preliminary file name is missing. -/
def exChunkNoName : Chunk :=
  { kind := ChunkKind.common
    modules := [0]
    preliminary_filename := Option.none }

/-- A chunk whose resolved file path has no parent (empty name, no cwd/dir). -/
def exChunkNoParent : Chunk :=
  { kind := ChunkKind.common
    modules := [0]
    preliminary_filename := some "" }

/-- Options with empty cwd and output directory. -/
def exOptionsNoDir : Options :=
  { format := OutputFormat.esm
    banner := Option.none
    footer := Option.none
    cwd := []
    dir := [] }

/-- A plugin driver that supplies content for every path. -/
def exPluginSome : PluginDriver := ⟨fun _ => .ok (some "plugin code")⟩

/-- A plugin driver that supplies nothing. -/
def exPluginNone : PluginDriver := ⟨fun _ => .ok Option.none⟩

/-- A file system with one file. -/
def exFS : FileSystem :=
  ⟨fun p => if p = "src/a.js" then .ok "disk code" else .error "missing file"⟩

/-- An ordinary resolved path. -/
def exPath : ResolvedPath := { path := "src/a.js", ignored := false }

/-- An ignored resolved path. -/
def exPathIgnored : ResolvedPath := { path := "src/skip.js", ignored := true }

/-- A minimal link output for the await-order analysis: one ordinary module,
short import/export texts. -/
def cexGraph : Graph :=
  { module_exports_kind := fun _ => ExportsKind.esm
    ast_contains_use_strict := fun _ => false
    render_output := fun i => if i = 0 then some exOut0 else Option.none
    wrap_kind := fun _ => WrapKind.none
    wrapper_ref := fun _ => Option.none
    canonical_name_for := fun _ => "n"
    render_chunk_imports_ret := "IMP"
    render_chunk_exports_ret := some "EXP" }

/-- A one-module common chunk for the await-order analysis. -/
def cexChunk : Chunk :=
  { kind := ChunkKind.common
    modules := [0]
    preliminary_filename := some "main.js" }

/-- Esm options with both banner and footer callables configured. -/
def cexOptions : Options :=
  { format := OutputFormat.esm
    banner := some (some "BAN")
    footer := some (some "FOO")
    cwd := []
    dir := ["dist"] }

/-! # Theorems -/

/-- **C9.** For every import kind, `is_static()` returns true exactly when
the kind is `Import` or `Require`, and returns false for `DynamicImport`. -/
theorem importKind_is_static_iff :
    (∀ k : ImportKind,
      k.is_static = true ↔ (k = ImportKind.Import ∨ k = ImportKind.Require)) ∧
    ImportKind.is_static ImportKind.DynamicImport = false := by
  refine ⟨fun k => ?_, rfl⟩
  cases k <;> simp [ImportKind.is_static]

/-- **C10.** A raw import record freshly constructed by
`RawImportRecord::new` has both usage flags cleared and carries the
constructor's arguments unchanged. -/
theorem rawImportRecord_new_fields :
    ∀ (specifier : String) (kind : ImportKind) (namespace_ref : SymbolRef),
      (RawImportRecord.new specifier kind namespace_ref).contains_import_star = false ∧
      (RawImportRecord.new specifier kind namespace_ref).contains_import_default = false ∧
      (RawImportRecord.new specifier kind namespace_ref).module_request = specifier ∧
      (RawImportRecord.new specifier kind namespace_ref).kind = kind ∧
      (RawImportRecord.new specifier kind namespace_ref).namespace_ref = namespace_ref :=
  fun _ _ _ => ⟨rfl, rfl, rfl, rfl, rfl⟩

/-- **C7.** `load_source` returns the plugin-supplied content when some
plugin supplies content; otherwise empty text for ignored paths; otherwise
the file system's raw text; and load errors propagate. -/
theorem load_source_spec :
    ∀ (plugin_driver : PluginDriver) (resolved_path : ResolvedPath) (fs : FileSystem),
      (∀ code, plugin_driver.load resolved_path.path = .ok (some code) →
        load_source plugin_driver resolved_path fs = .ok code) ∧
      (plugin_driver.load resolved_path.path = .ok Option.none →
        resolved_path.ignored = true →
        load_source plugin_driver resolved_path fs = .ok "") ∧
      (plugin_driver.load resolved_path.path = .ok Option.none →
        resolved_path.ignored = false →
        load_source plugin_driver resolved_path fs = fs.read_to_string resolved_path.path) ∧
      (∀ e, plugin_driver.load resolved_path.path = .error e →
        load_source plugin_driver resolved_path fs = .error e) := by
  intro pd rp fs
  refine ⟨fun code h => ?_, fun h hig => ?_, fun h hig => ?_, fun e h => ?_⟩
  · simp [load_source, h]
  · simp [load_source, h, hig]
  · simp [load_source, h, hig]
  · simp [load_source, h]

/-- Witness for C7: a plugin-supplied load, an ignored path, and a plain
file-system read, each at a concrete input. -/
theorem load_source_spec_witness :
    load_source exPluginSome exPath exFS = .ok "plugin code" ∧
    load_source exPluginNone exPathIgnored exFS = .ok "" ∧
    load_source exPluginNone exPath exFS = exFS.read_to_string "src/a.js" :=
  ⟨(load_source_spec exPluginSome exPath exFS).1 "plugin code" rfl,
   (load_source_spec exPluginNone exPathIgnored exFS).2.1 rfl rfl,
   (load_source_spec exPluginNone exPath exFS).2.2.1 rfl rfl⟩

/-! ### Trace decomposition lemmas -/

theorem renderEvents_eq_of_wrap (c : Chunk) (g : Graph) (o : Options)
    (ws : List String) (hw : wrapSources c g o = .ok ws) :
    renderEvents c g o =
      .ok (importEvents g o ++ moduleEvents (moduleRenderOutputs c g)
        ++ bannerEvents o ++ useStrictEvents c g o ++ ws.map RenderEvent.addSource
        ++ exportEvents g o ++ footerEvents o) := by
  simp [renderEvents, renderEventsWith, hw]

theorem prependsOf_append (a b : List RenderEvent) :
    prependsOf (a ++ b) = prependsOf a ++ prependsOf b := by
  simp [prependsOf]

theorem innerOf_append (a b : List RenderEvent) :
    innerOf (a ++ b) = innerOf a ++ innerOf b := by
  simp [innerOf]

theorem prependsOf_importEvents (g : Graph) (o : Options) :
    prependsOf (importEvents g o) = [] := by
  cases hf : o.format <;> simp [importEvents, hf, prependsOf]

theorem innerOf_importEvents (g : Graph) (o : Options) :
    innerOf (importEvents g o) = importSources g o := by
  cases hf : o.format <;> simp [importEvents, importSources, hf, innerOf]

theorem prependsOf_moduleEvents (outs : List ModuleRenderOutput) :
    prependsOf (moduleEvents outs) = [] := by
  induction outs with
  | nil => simp [moduleEvents, prependsOf]
  | cons out rest ih =>
    simp only [moduleEvents, List.flatMap_cons] at ih ⊢
    rw [prependsOf_append, ih]
    simp [prependsOf]

theorem innerOf_moduleEvents (outs : List ModuleRenderOutput) :
    innerOf (moduleEvents outs) = moduleSources outs := by
  induction outs with
  | nil => simp [moduleEvents, moduleSources, innerOf]
  | cons out rest ih =>
    simp only [moduleEvents, moduleSources, List.flatMap_cons] at ih ⊢
    rw [innerOf_append, ih]
    simp [innerOf]

theorem prependsOf_bannerEvents (o : Options) :
    prependsOf (bannerEvents o) = bannerPrependSources o := by
  cases hb : o.banner with
  | none => simp [bannerEvents, bannerPrependSources, hb, prependsOf]
  | some res =>
    cases res with
    | none => simp [bannerEvents, bannerTail, bannerPrependSources, hb, prependsOf]
    | some t =>
      by_cases ht : t = "" <;>
        simp [bannerEvents, bannerTail, bannerPrependSources, hb, ht, prependsOf]

theorem innerOf_bannerEvents (o : Options) : innerOf (bannerEvents o) = [] := by
  cases hb : o.banner with
  | none => simp [bannerEvents, hb, innerOf]
  | some res =>
    cases res with
    | none => simp [bannerEvents, bannerTail, hb, innerOf]
    | some t =>
      by_cases ht : t = "" <;> simp [bannerEvents, bannerTail, hb, ht, innerOf]

theorem prependsOf_useStrictEvents (c : Chunk) (g : Graph) (o : Options) :
    prependsOf (useStrictEvents c g o) = useStrictSources c g o := by
  cases hf : o.format <;>
    [skip; skip; skip] <;>
    by_cases hs : areModulesAllStrict c g <;>
      simp [useStrictEvents, useStrictSources, hf, hs, prependsOf]

theorem innerOf_useStrictEvents (c : Chunk) (g : Graph) (o : Options) :
    innerOf (useStrictEvents c g o) = [] := by
  cases hf : o.format <;>
    [skip; skip; skip] <;>
    by_cases hs : areModulesAllStrict c g <;>
      simp [useStrictEvents, hf, hs, innerOf]

theorem prependsOf_map_addSource (ws : List String) :
    prependsOf (ws.map RenderEvent.addSource) = [] := by
  induction ws with
  | nil => simp [prependsOf]
  | cons w rest ih => simp [prependsOf] at ih ⊢

theorem innerOf_map_addSource (ws : List String) :
    innerOf (ws.map RenderEvent.addSource) = ws := by
  induction ws with
  | nil => simp [innerOf]
  | cons w rest ih => simp [innerOf] at ih ⊢; exact ih

theorem prependsOf_exportEvents (g : Graph) (o : Options) :
    prependsOf (exportEvents g o) = [] := by
  cases hf : o.format <;> cases he : g.render_chunk_exports_ret <;>
    simp [exportEvents, hf, he, prependsOf]

theorem innerOf_exportEvents (g : Graph) (o : Options) :
    innerOf (exportEvents g o) = exportSources g o := by
  cases hf : o.format <;> cases he : g.render_chunk_exports_ret <;>
    simp [exportEvents, exportSources, hf, he, innerOf]

theorem prependsOf_footerEvents (o : Options) :
    prependsOf (footerEvents o) = [] := by
  cases hb : o.footer with
  | none => simp [footerEvents, hb, prependsOf]
  | some res =>
    cases res with
    | none => simp [footerEvents, footerTail, hb, prependsOf]
    | some t =>
      by_cases ht : t = "" <;> simp [footerEvents, footerTail, hb, ht, prependsOf]

theorem innerOf_footerEvents (o : Options) :
    innerOf (footerEvents o) = footerSources o := by
  cases hb : o.footer with
  | none => simp [footerEvents, footerSources, hb, innerOf]
  | some res =>
    cases res with
    | none => simp [footerEvents, footerTail, footerSources, hb, innerOf]
    | some t =>
      by_cases ht : t = "" <;>
        simp [footerEvents, footerTail, footerSources, hb, ht, innerOf]

theorem chunkPrependSources_eq (c : Chunk) (g : Graph) (o : Options)
    (ws : List String) (hw : wrapSources c g o = .ok ws) :
    chunkPrependSources c g o =
      .ok (bannerPrependSources o ++ useStrictSources c g o) := by
  rw [chunkPrependSources, renderEvents_eq_of_wrap c g o ws hw]
  simp [Except.map, prependsOf_append, prependsOf_importEvents, prependsOf_moduleEvents,
    prependsOf_bannerEvents, prependsOf_useStrictEvents, prependsOf_map_addSource,
    prependsOf_exportEvents, prependsOf_footerEvents]

theorem chunkInnerSources_eq (c : Chunk) (g : Graph) (o : Options)
    (ws : List String) (hw : wrapSources c g o = .ok ws) :
    chunkInnerSources c g o =
      .ok (importSources g o ++ moduleSources (moduleRenderOutputs c g)
        ++ ws ++ exportSources g o ++ footerSources o) := by
  rw [chunkInnerSources, renderEvents_eq_of_wrap c g o ws hw]
  simp [Except.map, innerOf_append, innerOf_importEvents, innerOf_moduleEvents,
    innerOf_bannerEvents, innerOf_useStrictEvents, innerOf_map_addSource,
    innerOf_exportEvents, innerOf_footerEvents]

theorem chunkCode_eq (c : Chunk) (g : Graph) (o : Options)
    (ws : List String) (hw : wrapSources c g o = .ok ws) :
    chunkCode c g o =
      .ok (strConcat ((bannerPrependSources o ++ useStrictSources c g o)
        ++ (importSources g o ++ moduleSources (moduleRenderOutputs c g)
          ++ ws ++ exportSources g o ++ footerSources o))) := by
  cases hre : renderEvents c g o with
  | error e =>
    rw [renderEvents_eq_of_wrap c g o ws hw] at hre
    exact absurd hre (by simp)
  | ok evs =>
    have hp : prependsOf evs = bannerPrependSources o ++ useStrictSources c g o := by
      have h := chunkPrependSources_eq c g o ws hw
      rw [chunkPrependSources, hre] at h
      simpa [Except.map] using h
    have hi : innerOf evs = importSources g o ++ moduleSources (moduleRenderOutputs c g)
        ++ ws ++ exportSources g o ++ footerSources o := by
      have h := chunkInnerSources_eq c g o ws hw
      rw [chunkInnerSources, hre] at h
      simpa [Except.map] using h
    rw [chunkCode, hre]
    simp [Except.map, contentOf, hp, hi]

theorem wrapSources_of_not_esm (c : Chunk) (g : Graph) (o : Options)
    (h : ¬ o.format = OutputFormat.esm) : wrapSources c g o = .ok [] := by
  cases hk : c.kind <;> cases hf : o.format <;> simp_all [wrapSources]

theorem areModulesAllStrict_iff (c : Chunk) (g : Graph) :
    areModulesAllStrict c g = true ↔
      ∀ i ∈ c.modules,
        g.module_exports_kind i = ExportsKind.esm ∨
          g.ast_contains_use_strict i = true := by
  rw [areModulesAllStrict, List.all_eq_true]
  refine forall_congr' fun i => forall_congr' fun _ => ?_
  cases hk : g.module_exports_kind i <;> simp [hk]

/-- **C3.** For every chunk rendered in CommonJS output format, the
`"use strict"` prologue is prepended if and only if every member module
either has ES-module export kind or textually contains a use-strict
directive: the prepended sources are exactly the banner text (if any)
followed by the directive when the condition holds, and the banner text
alone otherwise.  In particular a chunk containing one sloppy-mode module
never receives the prologue, and an all-ES-module chunk always does. -/
theorem use_strict_prologue_iff_all_strict (c : Chunk) (g : Graph) (o : Options)
    (h : o.format = OutputFormat.cjs) :
    chunkPrependSources c g o =
      .ok (bannerPrependSources o ++
        (if ∀ i ∈ c.modules,
            g.module_exports_kind i = ExportsKind.esm ∨
              g.ast_contains_use_strict i = true
         then [useStrictDirective] else [])) := by
  have hw : wrapSources c g o = .ok [] :=
    wrapSources_of_not_esm c g o (by simp [h])
  rw [chunkPrependSources_eq c g o [] hw]
  by_cases hs : ∀ i ∈ c.modules,
      g.module_exports_kind i = ExportsKind.esm ∨ g.ast_contains_use_strict i = true
  · have hb := (areModulesAllStrict_iff c g).mpr hs
    rw [if_pos hs]
    simp [useStrictSources, h, hb]
  · have hb : ¬ areModulesAllStrict c g = true :=
      fun hh => hs ((areModulesAllStrict_iff c g).mp hh)
    rw [if_neg hs]
    simp [useStrictSources, h, hb]

/-- Witness for C3: a concrete CommonJS chunk (one ESM module, one
already-strict CommonJS-path module) receives the prologue. -/
theorem use_strict_prologue_iff_all_strict_witness :
    chunkPrependSources exChunk exGraph exOptionsCjs =
      .ok (bannerPrependSources exOptionsCjs ++
        (if ∀ i ∈ exChunk.modules,
            exGraph.module_exports_kind i = ExportsKind.esm ∨
              exGraph.ast_contains_use_strict i = true
         then [useStrictDirective] else [])) :=
  use_strict_prologue_iff_all_strict exChunk exGraph exOptionsCjs rfl

/-- **C1.** For every chunk rendered with a banner callable returning
non-empty text, the banner text forms the first bytes of the chunk's final
code, preceding every other stage's output (all other sources — the
strict-mode directive included — come after it in the buffer). -/
theorem banner_text_is_first_bytes (c : Chunk) (g : Graph) (o : Options)
    (banner_txt : String) (hb : o.banner = some (some banner_txt))
    (ht : ¬ banner_txt = "") (hok : ∃ s, chunkCode c g o = .ok s) :
    ∃ rest, chunkCode c g o = .ok (banner_txt ++ rest) := by
  obtain ⟨s, hs⟩ := hok
  cases hw : wrapSources c g o with
  | error e =>
    rw [chunkCode, renderEvents, renderEventsWith, hw] at hs
    exact absurd hs (by simp [Except.map])
  | ok ws =>
    have hbp : bannerPrependSources o = [banner_txt] := by
      simp [bannerPrependSources, hb, ht]
    refine ⟨strConcat (useStrictSources c g o
      ++ (importSources g o ++ moduleSources (moduleRenderOutputs c g)
        ++ ws ++ exportSources g o ++ footerSources o)), ?_⟩
    rw [chunkCode_eq c g o ws hw, hbp]
    simp [strConcat]

/-- Witness for C1: with a shebang banner on a concrete Esm chunk, the final
code starts with the shebang. -/
theorem banner_text_is_first_bytes_witness :
    ∃ rest, chunkCode exChunk exGraph exOptionsEsm =
      .ok ("#!/usr/bin/env node\n" ++ rest) :=
  banner_text_is_first_bytes exChunk exGraph exOptionsEsm "#!/usr/bin/env node\n"
    rfl (by decide) ⟨_, rfl⟩

/-- **C4.** For every entry chunk rendered in ES-module output format: with
ESM-wrap kind an invocation `<initializer>();` is appended after all module
code; with CJS-wrap kind `export default <initializer>();` is appended after
all module code and strictly before the export block; with no wrap kind
nothing is appended; and for the non-Esm (CommonJS / App) formats no wrap
invocation is emitted. -/
theorem entry_wrap_invocation (c : Chunk) (g : Graph) (o : Options)
    (entry_id wrapper_ref : Nat) (hk : c.kind = ChunkKind.entryPoint entry_id)
    (hr : g.wrapper_ref entry_id = some wrapper_ref) :
    (o.format = OutputFormat.esm →
      (g.wrap_kind entry_id = WrapKind.esm →
        chunkInnerSources c g o =
          .ok (importSources g o ++ moduleSources (moduleRenderOutputs c g)
            ++ [g.canonical_name_for wrapper_ref ++ "();"]
            ++ exportSources g o ++ footerSources o)) ∧
      (g.wrap_kind entry_id = WrapKind.cjs →
        chunkInnerSources c g o =
          .ok (importSources g o ++ moduleSources (moduleRenderOutputs c g)
            ++ ["export default " ++ g.canonical_name_for wrapper_ref ++ "();\n"]
            ++ exportSources g o ++ footerSources o)) ∧
      (g.wrap_kind entry_id = WrapKind.none →
        chunkInnerSources c g o =
          .ok (importSources g o ++ moduleSources (moduleRenderOutputs c g)
            ++ exportSources g o ++ footerSources o))) ∧
    (¬ o.format = OutputFormat.esm →
      chunkInnerSources c g o =
        .ok (importSources g o ++ moduleSources (moduleRenderOutputs c g)
          ++ exportSources g o ++ footerSources o)) := by
  refine ⟨fun hf => ⟨fun hwk => ?_, fun hwk => ?_, fun hwk => ?_⟩, fun hf => ?_⟩
  · have hw : wrapSources c g o = .ok [g.canonical_name_for wrapper_ref ++ "();"] := by
      simp [wrapSources, hk, hf, hwk, hr]
    exact chunkInnerSources_eq c g o _ hw
  · have hw : wrapSources c g o =
        .ok ["export default " ++ g.canonical_name_for wrapper_ref ++ "();\n"] := by
      simp [wrapSources, hk, hf, hwk, hr]
    exact chunkInnerSources_eq c g o _ hw
  · have hw : wrapSources c g o = .ok [] := by
      simp [wrapSources, hk, hf, hwk]
    rw [chunkInnerSources_eq c g o [] hw]
    simp
  · have hw : wrapSources c g o = .ok [] := wrapSources_of_not_esm c g o hf
    rw [chunkInnerSources_eq c g o [] hw]
    simp

/-- Witness for C4: a concrete Esm entry chunk with CJS-wrap kind appends the
export-default invocation between the module code and the export block. -/
theorem entry_wrap_invocation_witness :
    chunkInnerSources exEntryChunk exGraph exOptionsEsm =
      .ok (importSources exGraph exOptionsEsm
        ++ moduleSources (moduleRenderOutputs exEntryChunk exGraph)
        ++ ["export default " ++ exGraph.canonical_name_for 7 ++ "();\n"]
        ++ exportSources exGraph exOptionsEsm ++ footerSources exOptionsEsm) :=
  ((entry_wrap_invocation exEntryChunk exGraph exOptionsEsm 0 7 rfl rfl).1 rfl).2.1 rfl

/-- **C6.** When a chunk's preliminary file name is missing, or its resolved
file path has no parent directory, `render_chunk` aborts with the internal
diagnostic naming the violated invariant instead of defaulting the value. -/
theorem missing_filename_or_parent_fatal (c : Chunk) (g : Graph) (o : Options)
    (hok : ∃ evs, renderEvents c g o = .ok evs) :
    (c.preliminary_filename = Option.none →
      render_chunk c g o = .error "chunk file name should be generated before rendering") ∧
    (∀ fname, c.preliminary_filename = some fname →
      pathParent (o.cwd ++ o.dir ++ splitPath fname) = Option.none →
      render_chunk c g o = .error "chunk file name should have a parent") := by
  obtain ⟨evs, hevs⟩ := hok
  constructor
  · intro hn
    simp [render_chunk, hevs, hn]
  · intro fname hf hp
    rw [List.append_assoc] at hp
    simp [render_chunk, hevs, hf, hp]

/-- Witness for C6: a chunk without a preliminary file name aborts with the
file-name diagnostic; an empty resolved path aborts with the parent
diagnostic. -/
theorem missing_filename_or_parent_fatal_witness :
    render_chunk exChunkNoName exGraph exOptionsNoDir =
      .error "chunk file name should be generated before rendering" ∧
    render_chunk exChunkNoParent exGraph exOptionsNoDir =
      .error "chunk file name should have a parent" :=
  ⟨(missing_filename_or_parent_fatal exChunkNoName exGraph exOptionsNoDir ⟨_, rfl⟩).1 rfl,
   (missing_filename_or_parent_fatal exChunkNoParent exGraph exOptionsNoDir ⟨_, rfl⟩).2 "" rfl rfl⟩

/-! ### Rendered-modules map lemmas -/

theorem mem_keys_insertMap (m : List (String × String)) (k v a : String) :
    a ∈ (insertMap m k v).map Prod.fst ↔ a ∈ m.map Prod.fst ∨ a = k := by
  have hfst : ∀ p : String × String,
      ((if p.1 = k then (k, v) else p) : String × String).1 = p.1 := by
    intro p
    by_cases hpk : p.1 = k <;> simp [hpk]
  rw [insertMap]
  by_cases h : m.any (fun p => p.1 = k)
  · rw [if_pos h]
    have hk : k ∈ m.map Prod.fst := by
      rcases List.any_eq_true.mp h with ⟨p, hp, he⟩
      exact List.mem_map.mpr ⟨p, hp, by simpa using he⟩
    have hkeys : (m.map fun p => if p.1 = k then (k, v) else p).map Prod.fst
        = m.map Prod.fst := by
      rw [List.map_map]
      exact List.map_congr_left fun p _ => hfst p
    rw [hkeys]
    constructor
    · exact Or.inl
    · rintro (ha | rfl)
      · exact ha
      · exact hk
  · rw [if_neg h]
    simp

theorem mem_keys_renderedModules_fold (outs : List ModuleRenderOutput)
    (m : List (String × String)) (a : String) :
    a ∈ (outs.foldl
        (fun m out =>
          if startsWithNull out.module_path then m
          else insertMap m out.module_path out.rendered_module) m).map Prod.fst ↔
      a ∈ m.map Prod.fst ∨
        ∃ out ∈ outs, startsWithNull out.module_path = false ∧ a = out.module_path := by
  induction outs generalizing m with
  | nil => simp
  | cons out rest ih =>
    rw [List.foldl_cons]
    by_cases hn : startsWithNull out.module_path
    · rw [if_pos hn, ih]
      constructor
      · rintro (ha | ⟨o', ho', hno', rfl⟩)
        · exact Or.inl ha
        · exact Or.inr ⟨o', List.mem_cons_of_mem _ ho', hno', rfl⟩
      · rintro (ha | ⟨o', ho', hno', rfl⟩)
        · exact Or.inl ha
        · rcases List.mem_cons.mp ho' with rfl | ho''
          · rw [hn] at hno'
            cases hno'
          · exact Or.inr ⟨o', ho'', hno', rfl⟩
    · rw [if_neg hn, ih]
      rw [Bool.not_eq_true] at hn
      constructor
      · rintro (ha | ⟨o', ho', hno', rfl⟩)
        · rcases (mem_keys_insertMap m out.module_path out.rendered_module a).mp ha
            with ha' | rfl
          · exact Or.inl ha'
          · exact Or.inr ⟨out, List.mem_cons_self _ _, hn, rfl⟩
        · exact Or.inr ⟨o', List.mem_cons_of_mem _ ho', hno', rfl⟩
      · rintro (ha | ⟨o', ho', hno', rfl⟩)
        · exact Or.inl ((mem_keys_insertMap m out.module_path out.rendered_module a).mpr
            (Or.inl ha))
        · rcases List.mem_cons.mp ho' with rfl | ho''
          · exact Or.inl ((mem_keys_insertMap m o'.module_path o'.rendered_module
              o'.module_path).mpr (Or.inr rfl))
          · exact Or.inr ⟨o', ho'', hno', rfl⟩

/-- **C8.** Every rendered module whose path begins with a null byte is
omitted from the user-facing `rendered_modules` map, while its rendered text
still appears among the sources of the concatenated output; a rendered
module with an ordinary path is always recorded in the map. -/
theorem null_path_modules_filtered (c : Chunk) (g : Graph) (o : Options)
    (out : ModuleRenderOutput) (hmem : out ∈ moduleRenderOutputs c g) :
    (startsWithNull out.module_path = true →
      ¬ out.module_path ∈ (renderedModules (moduleRenderOutputs c g)).map Prod.fst) ∧
    (startsWithNull out.module_path = false →
      out.module_path ∈ (renderedModules (moduleRenderOutputs c g)).map Prod.fst) ∧
    (∀ evs, renderEvents c g o = .ok evs →
      RenderEvent.addSource out.rendered_content ∈ evs) := by
  refine ⟨fun hn hin => ?_, fun hn => ?_, fun evs hevs => ?_⟩
  · rw [renderedModules,
      mem_keys_renderedModules_fold (moduleRenderOutputs c g) [] out.module_path] at hin
    rcases hin with ha | ⟨o', _, hno', heq⟩
    · simp at ha
    · rw [heq, hno'] at hn
      cases hn
  · rw [renderedModules,
      mem_keys_renderedModules_fold (moduleRenderOutputs c g) [] out.module_path]
    exact Or.inr ⟨out, hmem, hn, rfl⟩
  · cases hw : wrapSources c g o with
    | error e =>
      rw [renderEvents, renderEventsWith, hw] at hevs
      cases hevs
    | ok ws =>
      rw [renderEvents_eq_of_wrap c g o ws hw] at hevs
      cases hevs
      refine List.mem_append.mpr (Or.inl ?_)
      refine List.mem_append.mpr (Or.inl ?_)
      refine List.mem_append.mpr (Or.inl ?_)
      refine List.mem_append.mpr (Or.inl ?_)
      refine List.mem_append.mpr (Or.inl ?_)
      refine List.mem_append.mpr (Or.inr ?_)
      exact List.mem_flatMap.mpr ⟨out, hmem, by simp⟩

/-- Witness for C8: in a concrete chunk, the null-byte-prefixed module is
absent from the map, the ordinary module is present, and both rendered texts
are in the trace. -/
theorem null_path_modules_filtered_witness :
    (¬ "\x00rolldown/runtime" ∈
      (renderedModules (moduleRenderOutputs exChunk exGraph)).map Prod.fst) ∧
    "src/a.js" ∈ (renderedModules (moduleRenderOutputs exChunk exGraph)).map Prod.fst :=
  ⟨(null_path_modules_filtered exChunk exGraph exOptionsEsm exOutNull
      (by simp [moduleRenderOutputs, exChunk, exGraph])).1 rfl,
   (null_path_modules_filtered exChunk exGraph exOptionsEsm exOut0
      (by simp [moduleRenderOutputs, exChunk, exGraph])).2.1 rfl⟩

/-! ### Event-shape lemmas -/

theorem importEvents_shape (g : Graph) (o : Options) :
    ∀ ev ∈ importEvents g o, ∃ s, ev = RenderEvent.addSource s := by
  intro ev hev
  cases hf : o.format <;> simp [importEvents, hf] at hev <;> exact ⟨_, hev⟩

theorem moduleEvents_shape (outs : List ModuleRenderOutput) :
    ∀ ev ∈ moduleEvents outs, ∃ s, ev = RenderEvent.addSource s := by
  intro ev hev
  rcases List.mem_flatMap.mp hev with ⟨out, _, h⟩
  simp at h
  rcases h with h | h
  · exact ⟨_, h⟩
  · exact ⟨_, h⟩

theorem bannerTail_shape (res : Option String) :
    ∀ ev ∈ bannerTail res, ∃ s, ev = RenderEvent.addPrepend s := by
  intro ev hev
  cases res with
  | none => simp [bannerTail] at hev
  | some t =>
    by_cases ht : t = "" <;> simp [bannerTail, ht] at hev
    exact ⟨_, hev⟩

theorem useStrictEvents_shape (c : Chunk) (g : Graph) (o : Options) :
    ∀ ev ∈ useStrictEvents c g o, ∃ s, ev = RenderEvent.addPrepend s := by
  intro ev hev
  cases hf : o.format <;> simp [useStrictEvents, hf] at hev
  rcases hev with ⟨_, hev⟩
  exact ⟨_, hev⟩

theorem exportEvents_shape (g : Graph) (o : Options) :
    ∀ ev ∈ exportEvents g o, ∃ s, ev = RenderEvent.addSource s := by
  intro ev hev
  cases hf : o.format <;> cases he : g.render_chunk_exports_ret <;>
      simp [exportEvents, hf, he] at hev <;> exact ⟨_, hev⟩

theorem footerTail_shape (res : Option String) :
    ∀ ev ∈ footerTail res, ∃ s, ev = RenderEvent.addSource s := by
  intro ev hev
  cases res with
  | none => simp [footerTail] at hev
  | some t =>
    by_cases ht : t = "" <;> simp [footerTail, ht] at hev
    exact ⟨_, hev⟩

theorem map_addSource_shape (ws : List String) :
    ∀ ev ∈ ws.map RenderEvent.addSource, ∃ s, ev = RenderEvent.addSource s := by
  intro ev hev
  rcases List.mem_map.mp hev with ⟨s, _, rfl⟩
  exact ⟨s, rfl⟩

/-- **C2 (counterexample).** At a concrete input with both callables
configured, the banner callable is awaited (index 3) strictly before the
export block is emitted (index 5) and strictly before the footer callable
is awaited (index 6) — refuting "the banner callable is awaited only after
everything else". -/
theorem banner_awaited_early_counterexample :
    ∃ (L : List RenderEvent) (i j k : Nat),
      renderEvents cexChunk cexGraph cexOptions = .ok L ∧
      i < j ∧ j < k ∧
      L[i]? = some RenderEvent.awaitBanner ∧
      L[j]? = some (RenderEvent.addSource "EXP") ∧
      L[k]? = some RenderEvent.awaitFooter := by
  refine ⟨_, 3, 5, 6, rfl, ?_, ?_, rfl, rfl, rfl⟩ <;> decide

/-- **C2 (amended).** In every chunk render with both callables configured,
the footer callable is awaited only after all code-generation stages
(import preamble, module rendering, wrap invocation, export block); the
banner callable is awaited directly after module rendering — before the
strict-mode, wrap and export stages and before the footer — and the two
awaits are distinct sequential points of one trace, so neither overlaps
module rendering or the other. -/
theorem banner_footer_await_order (c : Chunk) (g : Graph) (o : Options)
    (ws : List String) (hb : ¬ o.banner = Option.none)
    (hf : ¬ o.footer = Option.none) (hw : wrapSources c g o = .ok ws) :
    ∃ pre mid post,
      renderEvents c g o =
        .ok (pre ++ RenderEvent.awaitBanner :: (mid ++ RenderEvent.awaitFooter :: post)) ∧
      (∀ out ∈ moduleRenderOutputs c g,
        RenderEvent.addSource out.rendered_content ∈ pre) ∧
      (¬ RenderEvent.awaitBanner ∈ pre) ∧
      (¬ RenderEvent.awaitFooter ∈ pre) ∧
      (¬ RenderEvent.awaitFooter ∈ mid) ∧
      (∀ s, RenderEvent.addSource s ∈ exportEvents g o →
        RenderEvent.addSource s ∈ mid) ∧
      (∀ ev ∈ post, ∃ t, ev = RenderEvent.addSource t) := by
  rcases hbr : o.banner with _ | br
  · exact absurd hbr hb
  rcases hfr : o.footer with _ | fr
  · exact absurd hfr hf
  refine ⟨importEvents g o ++ moduleEvents (moduleRenderOutputs c g),
    bannerTail br ++ useStrictEvents c g o ++ ws.map RenderEvent.addSource
      ++ exportEvents g o,
    footerTail fr, ?_, ?_, ?_, ?_, ?_, ?_, ?_⟩
  · rw [renderEvents_eq_of_wrap c g o ws hw]
    simp [bannerEvents, footerEvents, hbr, hfr]
  · intro out hout
    refine List.mem_append.mpr (Or.inr ?_)
    exact List.mem_flatMap.mpr ⟨out, hout, by simp⟩
  · intro hmem
    rcases List.mem_append.mp hmem with h | h
    · rcases importEvents_shape g o _ h with ⟨s, hs⟩
      exact RenderEvent.noConfusion hs
    · rcases moduleEvents_shape _ _ h with ⟨s, hs⟩
      exact RenderEvent.noConfusion hs
  · intro hmem
    rcases List.mem_append.mp hmem with h | h
    · rcases importEvents_shape g o _ h with ⟨s, hs⟩
      exact RenderEvent.noConfusion hs
    · rcases moduleEvents_shape _ _ h with ⟨s, hs⟩
      exact RenderEvent.noConfusion hs
  · intro hmem
    rcases List.mem_append.mp hmem with h | h
    · rcases List.mem_append.mp h with h' | h'
      · rcases List.mem_append.mp h' with h'' | h''
        · rcases bannerTail_shape br _ h'' with ⟨s, hs⟩
          exact RenderEvent.noConfusion hs
        · rcases useStrictEvents_shape c g o _ h'' with ⟨s, hs⟩
          exact RenderEvent.noConfusion hs
      · rcases map_addSource_shape ws _ h' with ⟨s, hs⟩
        exact RenderEvent.noConfusion hs
    · rcases exportEvents_shape g o _ h with ⟨s, hs⟩
      exact RenderEvent.noConfusion hs
  · intro s hs
    exact List.mem_append.mpr (Or.inr hs)
  · exact footerTail_shape fr

/-- Witness for the amended C2 at a concrete entry chunk with banner,
footer, and a CJS-wrap invocation. -/
theorem banner_footer_await_order_witness :
    ∃ pre mid post,
      renderEvents exEntryChunk exGraph exOptionsEsm =
        .ok (pre ++ RenderEvent.awaitBanner :: (mid ++ RenderEvent.awaitFooter :: post)) ∧
      (∀ out ∈ moduleRenderOutputs exEntryChunk exGraph,
        RenderEvent.addSource out.rendered_content ∈ pre) ∧
      (¬ RenderEvent.awaitBanner ∈ pre) ∧
      (¬ RenderEvent.awaitFooter ∈ pre) ∧
      (¬ RenderEvent.awaitFooter ∈ mid) ∧
      (∀ s, RenderEvent.addSource s ∈ exportEvents exGraph exOptionsEsm →
        RenderEvent.addSource s ∈ mid) ∧
      (∀ ev ∈ post, ∃ t, ev = RenderEvent.addSource t) :=
  banner_footer_await_order exEntryChunk exGraph exOptionsEsm _
    (by simp [exOptionsEsm]) (by simp [exOptionsEsm]) rfl

/-! ### Worker-pool determinism lemmas -/

theorem length_writeSlots (l : List (Nat × α)) (slots : List (Option α)) :
    (writeSlots slots l).length = slots.length := by
  induction l generalizing slots with
  | nil => rfl
  | cons p rest ih =>
    rcases p with ⟨i, a⟩
    show (writeSlots (slots.set i (some a)) rest).length = slots.length
    rw [ih]
    exact List.length_set slots i a

theorem getElem?_writeSlots (f : Nat → α) (l : List Nat)
    (slots : List (Option α)) (j : Nat) :
    (writeSlots slots (l.map fun i => (i, f i)))[j]? =
      if j ∈ l ∧ j < slots.length then some (some (f j)) else slots[j]? := by
  induction l generalizing slots with
  | nil => simp [writeSlots]
  | cons i rest ih =>
    simp only [List.map_cons]
    show (writeSlots (slots.set i (some (f i))) (rest.map fun i => (i, f i)))[j]? = _
    rw [ih]
    simp only [List.length_set]
    by_cases hmem : j ∈ rest
    · by_cases hlt : j < slots.length
      · simp [hmem, hlt]
      · have h1 : (slots.set i (some (f i)))[j]? = none :=
          List.getElem?_eq_none (by simpa using Nat.le_of_not_lt hlt)
        have h2 : slots[j]? = none :=
          List.getElem?_eq_none (Nat.le_of_not_lt hlt)
        simp [hmem, hlt, h1, h2]
    · by_cases hij : j = i
      · subst hij
        by_cases hlt : j < slots.length
        · simp [hmem, hlt, List.getElem?_set_self hlt]
        · have h1 : (slots.set j (some (f j)))[j]? = none :=
            List.getElem?_eq_none (by simpa using Nat.le_of_not_lt hlt)
          have h2 : slots[j]? = none :=
            List.getElem?_eq_none (Nat.le_of_not_lt hlt)
          simp [hmem, hlt, h1, h2]
      · have hne : i ≠ j := fun h => hij h.symm
        simp [hmem, hij, List.getElem?_set_ne hne]

theorem writeSlots_perm (f : Nat → α) (n : Nat) (s : List Nat)
    (hs : s.Perm (List.range n)) :
    writeSlots (List.replicate n Option.none) (s.map fun i => (i, f i)) =
      (List.range n).map fun j => some (f j) := by
  apply List.ext_get?_iff.mpr
  intro j
  rw [List.get?_eq_getElem?, List.get?_eq_getElem?, getElem?_writeSlots]
  have hmem : j ∈ s ↔ j < n := by rw [hs.mem_iff, List.mem_range]
  by_cases hj : j < n
  · rw [if_pos ⟨hmem.mpr hj, by simpa using hj⟩]
    rw [List.getElem?_map, List.getElem?_range hj]
    rfl
  · rw [if_neg (by simp [hmem, hj])]
    rw [List.getElem?_eq_none (by simpa using Nat.le_of_not_lt hj)]
    rw [List.getElem?_eq_none (by simpa using Nat.le_of_not_lt hj)]

theorem filterMap_range_getElem (ms : List β) (h : β → Option γ) :
    (List.range ms.length).filterMap (fun i => ms[i]?.bind h) = ms.filterMap h := by
  induction ms with
  | nil => simp
  | cons b rest ih =>
    rw [List.length_cons, List.range_succ_eq_map]
    rw [List.filterMap_cons, List.filterMap_map]
    have hcomp : ((fun i => (b :: rest)[i]?.bind h) ∘ Nat.succ)
        = fun i => rest[i]?.bind h := by
      funext i
      simp
    rw [hcomp, ih]
    cases hb : h b <;> simp [hb, List.filterMap_cons]

theorem pooledOutputs_perm (c : Chunk) (g : Graph) (s : List Nat)
    (hs : s.Perm (List.range c.modules.length)) :
    pooledOutputs c g s = moduleRenderOutputs c g := by
  rw [pooledOutputs, poolCompletions,
    writeSlots_perm (fun i => c.modules[i]?.bind g.render_output) c.modules.length s hs]
  rw [List.filterMap_map]
  have hcomp : (id ∘ fun (j : Nat) => some (c.modules[j]?.bind g.render_output))
      = some ∘ fun (j : Nat) => c.modules[j]?.bind g.render_output := rfl
  rw [hcomp, List.filterMap_eq_map, List.filterMap_map]
  have hid : (id ∘ fun (j : Nat) => c.modules[j]?.bind g.render_output)
      = fun (j : Nat) => c.modules[j]?.bind g.render_output := rfl
  rw [hid, filterMap_range_getElem, moduleRenderOutputs]

/-- **C5.** The rendered module fragments are consumed in the chunk's static
module-list order, independent of the pool's completion order: for any two
completion schedules (permutations of the module indices, abstracting pool
size and parallel completion order) the final code is byte-identical, and
equals the sequential (static-order) render. -/
theorem render_deterministic_under_schedule (c : Chunk) (g : Graph)
    (o : Options) (s₁ s₂ : List Nat)
    (h₁ : s₁.Perm (List.range c.modules.length))
    (h₂ : s₂.Perm (List.range c.modules.length)) :
    chunkCodePooled c g o s₁ = chunkCodePooled c g o s₂ ∧
    chunkCodePooled c g o s₁ = chunkCode c g o := by
  have e₁ := pooledOutputs_perm c g s₁ h₁
  have e₂ := pooledOutputs_perm c g s₂ h₂
  constructor
  · rw [chunkCodePooled, chunkCodePooled, e₁, e₂]
  · rw [chunkCodePooled, chunkCode, renderEvents, e₁]

/-- Witness for C5: two opposite completion schedules of a concrete
two-module chunk produce the same code as the sequential render. -/
theorem render_deterministic_under_schedule_witness :
    chunkCodePooled exChunk exGraph exOptionsEsm [1, 0] =
      chunkCodePooled exChunk exGraph exOptionsEsm [0, 1] ∧
    chunkCodePooled exChunk exGraph exOptionsEsm [1, 0] =
      chunkCode exChunk exGraph exOptionsEsm :=
  render_deterministic_under_schedule exChunk exGraph exOptionsEsm [1, 0] [0, 1]
    (by decide) (by decide)

end Rolldown
